import Mathlib

/-!
Shallow embedding of the imu_intelligence state-estimation and
self-calibration core.

Numeric model: the Python source computes with IEEE floats; this
development uses exact arithmetic instead (ℚ for the calibrator, the
adaptive-noise rule and the dimension analysis; ℝ for the quaternion
filter, whose normalization involves square roots).  Square roots taken
by the calibrator (np.linalg.norm) are abstracted as an explicit
function parameter, so theorems quantify over it and concrete
evaluations instantiate it with an exact rational square root.
-/

namespace IMU

/-- A 3-vector of exact rationals (one accelerometer or gyroscope sample). -/
structure QV3 where
  x : ℚ
  y : ℚ
  z : ℚ
deriving DecidableEq

/-- Sum of a list of rationals. -/
def listSum (l : List ℚ) : ℚ := l.foldr (fun a b => a + b) 0

/-- np.mean of a 1-D array. -/
def listMean (l : List ℚ) : ℚ := listSum l / l.length

/-- np.var of a 1-D array (population variance, ddof = 0). -/
def listVar (l : List ℚ) : ℚ :=
  listSum (l.map fun a => (a - listMean l) ^ 2) / l.length

/-- arr.mean(axis=0) for an (n,3) array. -/
def meanVec (l : List QV3) : QV3 :=
  ⟨listMean (l.map QV3.x), listMean (l.map QV3.y), listMean (l.map QV3.z)⟩

/-- np.var(arr, axis=0) for an (n,3) array. -/
def varVec (l : List QV3) : QV3 :=
  ⟨listVar (l.map QV3.x), listVar (l.map QV3.y), listVar (l.map QV3.z)⟩

/-- np.mean of a 3-vector (mean over the three axis values). -/
def mean3 (v : QV3) : ℚ := (v.x + v.y + v.z) / 3

/-- Squared Euclidean norm of a 3-vector; np.linalg.norm(v) is the square
root of this. -/
def normSq3 (v : QV3) : ℚ := v.x * v.x + v.y * v.y + v.z * v.z

/-- Exact rational square root: precise whenever numerator and denominator
are perfect squares (the only inputs at which concrete evaluations below
take a square root); used to instantiate the square-root parameter of the
calibrator model. -/
def ratSqrt (q : ℚ) : ℚ := (Nat.sqrt q.num.toNat : ℚ) / (Nat.sqrt q.den : ℚ)

namespace SelfCalibrator

/-- The calibration_data dict of src/core/calibration.py, with its six
fixed keys as typed fields. -/
structure CalibData where
  accel_bias : QV3
  gyro_bias : QV3
  accel_scale : QV3
  gyro_scale : QV3
  gravity_magnitude : ℚ
  stationary_threshold : ℚ
deriving DecidableEq

/-- The record built in SelfCalibrator.__init__: zero biases, unit scale
factors, gravity 9.81, stationary threshold 0.05. -/
def initCalibData : CalibData :=
  { accel_bias := ⟨0, 0, 0⟩
    gyro_bias := ⟨0, 0, 0⟩
    accel_scale := ⟨1, 1, 1⟩
    gyro_scale := ⟨1, 1, 1⟩
    gravity_magnitude := 981 / 100
    stationary_threshold := 1 / 20 }

/-- Full SelfCalibrator object state.  The window is a
deque(maxlen=window_maxlen) stored oldest-first; stationary models the
pair of attributes self.stationary_accel / self.stationary_gyro, which do
not exist (none) until detect_stationary first assigns them. -/
structure CalibState where
  window_maxlen : ℕ
  window : List (QV3 × QV3)
  is_calibrated : Bool
  calibration_data : CalibData
  stationary : Option (QV3 × QV3)
deriving DecidableEq

/-- SelfCalibrator.__init__(window_size). -/
def initCalibState (window_size : ℕ) : CalibState :=
  { window_maxlen := window_size
    window := []
    is_calibrated := false
    calibration_data := initCalibData
    stationary := none }

/-- deque.append on a deque with maxlen = cap: the new element goes to the
right; if the deque already holds cap elements the leftmost (oldest) one
is discarded. -/
def appendWindow {α : Type} (cap : ℕ) (w : List α) (a : α) : List α :=
  (w ++ [a]).drop (w.length + 1 - cap)

/-- SelfCalibrator._detect_stationary, parametrized by the square-root
function used by np.linalg.norm.  Python list slicing [-50:] keeps the
last min(50, len) elements, i.e. drop (len - 50). -/
def detect_stationary (sqrtq : ℚ → ℚ) (st : CalibState) : CalibState :=
  let recent := st.window.drop (st.window.length - 50)
  let recent_accel := recent.map Prod.fst
  let recent_gyro := recent.map Prod.snd
  let accel_var := varVec recent_accel
  let gyro_var := varVec recent_gyro
  if mean3 accel_var < st.calibration_data.stationary_threshold ∧
      mean3 gyro_var < 1 / 1000 then
    { st with
      stationary := some (meanVec recent_accel, meanVec recent_gyro)
      calibration_data :=
        { st.calibration_data with
          gravity_magnitude := sqrtq (normSq3 (meanVec recent_accel)) } }
  else st

/-- Outcome of the scipy.optimize.minimize call in _auto_calibrate,
treated as an oracle: the library either raises, or returns an object
with a success flag and a parameter vector (bias, scale); finite records
whether np.all(np.isfinite(result.x)) holds (exact rationals are always
finite, so the float finiteness of the returned vector is part of the
oracle's answer). -/
inductive OptOutcome where
  | raised : OptOutcome
  | returned (success : Bool) (finite : Bool) (bias scale : QV3) : OptOutcome
deriving DecidableEq

/-- True exactly when the branch of _auto_calibrate that falls back to
the seed values runs: the call raised, or success-and-finite fails. -/
def OptOutcome.failed : OptOutcome → Bool
  | OptOutcome.raised => true
  | OptOutcome.returned success finite _ _ => !(success && finite)

/-- The minimize call abstracted: it sees the window contents (through
all_accel in the cost function) and the current gravity_magnitude the
cost function closes over. -/
def OptOracle : Type := List (QV3 × QV3) → ℚ → OptOutcome

/-- Errors that can escape the calibrator: reading the missing attribute
self.stationary_gyro raises AttributeError. -/
inductive CalibErr where
  | attributeError : CalibErr
deriving DecidableEq

/-- SelfCalibrator._auto_calibrate.  Reading self.stationary_gyro happens
before (and outside) the try block, so when no stationary interval was
ever detected the AttributeError propagates with no field mutated.
Otherwise gyro_bias is set first; the try block around minimize maps a
raised exception and a failed/non-finite result to the same fallback
(seed bias and scale), and only the success branch sets is_calibrated. -/
def auto_calibrate (opt : OptOracle) (st : CalibState) :
    CalibState × Option CalibErr :=
  match st.stationary with
  | none => (st, some CalibErr.attributeError)
  | some (_, sg) =>
    let d1 := { st.calibration_data with gyro_bias := sg }
    match opt st.window d1.gravity_magnitude with
    | OptOutcome.raised =>
      ({ st with calibration_data :=
          { d1 with accel_bias := ⟨0, 0, 0⟩, accel_scale := ⟨1, 1, 1⟩ } }, none)
    | OptOutcome.returned success finite bias scale =>
      if success && finite then
        ({ st with
            calibration_data := { d1 with accel_bias := bias, accel_scale := scale }
            is_calibrated := true }, none)
      else
        ({ st with calibration_data :=
            { d1 with accel_bias := ⟨0, 0, 0⟩, accel_scale := ⟨1, 1, 1⟩ } }, none)

/-- The first two statements of SelfCalibrator.add_sample: append the
sample to the window, then run stationarity detection once the window
holds more than 100 samples. -/
def addSampleStage1 (sqrtq : ℚ → ℚ) (st : CalibState) (accel gyro : QV3) :
    CalibState :=
  let st1 := { st with
    window := appendWindow st.window_maxlen st.window (accel, gyro) }
  if 100 < st1.window.length then detect_stationary sqrtq st1 else st1

/-- SelfCalibrator.add_sample.  The second component records an exception
escaping the call (none = the call returned normally); the first
component is the object state after the call, including the mutations
performed before a raise. -/
def add_sample (sqrtq : ℚ → ℚ) (opt : OptOracle) (st : CalibState)
    (accel gyro : QV3) : CalibState × Option CalibErr :=
  let st2 := addSampleStage1 sqrtq st accel gyro
  if st2.window.length = st.window_maxlen then auto_calibrate opt st2
  else (st2, none)

/-- SelfCalibrator.get_calibration. -/
def get_calibration (st : CalibState) : CalibData := st.calibration_data

/-- A caller feeding a sequence of samples through add_sample, catching
(and remembering) any exception and continuing; the Bool records whether
any call raised. -/
def runAddSamples (sqrtq : ℚ → ℚ) (opt : OptOracle) :
    CalibState → List (QV3 × QV3) → CalibState × Bool
  | st, [] => (st, false)
  | st, (a, g) :: rest =>
    let r := add_sample sqrtq opt st a g
    let rr := runAddSamples sqrtq opt r.1 rest
    (rr.1, r.2.isSome || rr.2)

/-- The invariant that every calibration field except gravity_magnitude
and gyro_bias keeps its constructed default while no fit has succeeded. -/
def defaultsInv (st : CalibState) : Prop :=
  (st.is_calibrated = false →
    st.calibration_data.accel_bias = ⟨0, 0, 0⟩ ∧
    st.calibration_data.accel_scale = ⟨1, 1, 1⟩) ∧
  st.calibration_data.gyro_scale = ⟨1, 1, 1⟩ ∧
  st.calibration_data.stationary_threshold = 1 / 20

/-- 101 samples whose gyro x-component alternates 0, 1: the variance of
the last 50 readings is 1/4, far above the 0.001 gate, so stationarity is
never detected before the window (capacity 101 here) fills. -/
def c3Samples : List (QV3 × QV3) :=
  (List.range 101).map fun i => (⟨0, 0, 0⟩, ⟨if i % 2 = 0 then 0 else 1, 0, 0⟩)

/-- 101 identical perfectly-still samples with accel (0,0,1): variance 0
on every axis, so stationarity is detected on the 101st call while the
default-capacity window (1000) is far from full. -/
def c5Samples : List (QV3 × QV3) := List.replicate 101 (⟨0, 0, 1⟩, ⟨0, 0, 0⟩)

/-- Oracle for runs in which the minimize call, if ever reached, raises. -/
def raiseOracle : OptOracle := fun _ _ => OptOutcome.raised

/-- Oracle modelling a minimize call that returns without converging
(success = false, parameters finite). -/
def failOracle : OptOracle :=
  fun _ _ => OptOutcome.returned false true ⟨0, 0, 0⟩ ⟨1, 1, 1⟩

/-- A calibrator whose earlier fit succeeded (is_calibrated already true)
and which holds a stationary snapshot, about to run auto-calibration
again on a refilled window. -/
def c4State : CalibState :=
  { window_maxlen := 1
    window := [(⟨0, 0, 1⟩, ⟨0, 0, 0⟩)]
    is_calibrated := true
    calibration_data :=
      { initCalibData with accel_bias := ⟨1/10, 0, 0⟩, accel_scale := ⟨1, 1, 2⟩ }
    stationary := some (⟨0, 0, 1⟩, ⟨1/100, 0, 0⟩) }

end SelfCalibrator

/-!
Dimension-and-value analysis of numpy expressions: a matrix carries its
shape; matmul requires inner dimensions to agree and elementwise addition
follows the 2-D broadcasting rule (each dimension must match or be 1),
returning none exactly when numpy raises a ValueError.
-/

/-- A numpy 2-D array: shape plus entries (reads outside the shape are
irrelevant). -/
structure NMat where
  rows : ℕ
  cols : ℕ
  entry : ℕ → ℕ → ℚ

/-- The @ operator on 2-D arrays: defined only when inner dimensions
agree. -/
def npMatmul (A B : NMat) : Option NMat :=
  if A.cols = B.rows then
    some ⟨A.rows, B.cols, fun i j => ∑ k in Finset.range A.cols, A.entry i k * B.entry k j⟩
  else none

/-- Broadcast of one dimension: equal sizes, or one of them is 1. -/
def bcastDim (m n : ℕ) : Option ℕ :=
  if m = n then some m else if m = 1 then some n else if n = 1 then some m else none

/-- The + operator on 2-D arrays under numpy broadcasting; none is a
ValueError (operands could not be broadcast together). -/
def npAdd (A B : NMat) : Option NMat :=
  match bcastDim A.rows B.rows, bcastDim A.cols B.cols with
  | some r, some c =>
    some ⟨r, c, fun i j =>
      A.entry (if A.rows = 1 then 0 else i) (if A.cols = 1 then 0 else j) +
      B.entry (if B.rows = 1 then 0 else i) (if B.cols = 1 then 0 else j)⟩
  | _, _ => none

/-- .T on a 2-D array. -/
def npTranspose (A : NMat) : NMat := ⟨A.cols, A.rows, fun i j => A.entry j i⟩

namespace AdaptiveEKF

/-- AdaptiveEKF._measurement_jacobian: np.zeros((3,13)) with only the
four quaternion columns of each row populated (q = state[0:4] is
(qw, qx, qy, qz)). -/
def measurement_jacobian (qw qx qy qz : ℚ) : NMat :=
  ⟨3, 13, fun i j =>
    if i = 0 then
      if j = 0 then 2 * qx else if j = 1 then 2 * qy else if j = 2 then 2 * qz else 0
    else if i = 1 then
      if j = 1 then 2 * qw else if j = 3 then 2 * qz else 0
    else if i = 2 then
      if j = 0 then 2 * qw else if j = 2 then 2 * qx else if j = 3 then 2 * qy else 0
    else 0⟩

/-- The measurement-noise matrix of AdaptiveEKF.__init__:
self.R = np.eye(6) * 0.01 — a 6×6 array. -/
def Rmeas : NMat := ⟨6, 6, fun i j => if i = j then 1 / 100 else 0⟩

/-- The innovation-covariance expression of AdaptiveEKF.update,
S = H @ P @ H.T + R, evaluated in the numpy shape calculus.  P is the
13×13 covariance (its entries are arbitrary: self.P starts as
np.eye(13)*0.1 and predict/update only ever rebuild it 13×13). -/
def updateS (qw qx qy qz : ℚ) (P : ℕ → ℕ → ℚ) : Option NMat :=
  let H := measurement_jacobian qw qx qy qz
  (npMatmul H ⟨13, 13, P⟩).bind fun HP =>
    (npMatmul HP (npTranspose H)).bind fun HPHt => npAdd HPHt Rmeas

/-- AdaptiveEKF._adapt_noise, in exact arithmetic.  Q is the 13×13
process-noise matrix, innovation the 3-vector y, innovation_cov the
matrix S.  N = innovation @ innovation.T is the scalar y·y; Q is scaled
by 1 + alpha = 1.01 when N > 2·trace(S) and by 1 − alpha/10 = 0.999
otherwise, then clamped elementwise against np.eye(13) * 1e-6 (whose
off-diagonal entries are 0). -/
def adapt_noise (Q : Matrix (Fin 13) (Fin 13) ℚ) (innovation : QV3)
    (innovation_cov : Matrix (Fin 3) (Fin 3) ℚ) : Matrix (Fin 13) (Fin 13) ℚ :=
  let N := normSq3 innovation
  let factor : ℚ := if 2 * Matrix.trace innovation_cov < N then 101 / 100 else 999 / 1000
  Matrix.of fun i j =>
    max (factor * Q i j) (if i = j then 1 / 1000000 else 0)

/-- The initial process noise of AdaptiveEKF.__init__:
self.Q = np.eye(13) * 0.001. -/
def Qinit : Matrix (Fin 13) (Fin 13) ℚ := Matrix.of fun i j => if i = j then 1 / 1000 else 0

/-- A process-noise matrix sitting exactly at the clamp floor
np.eye(13) * 1e-6 (reached after enough small-innovation updates). -/
def Qfloor : Matrix (Fin 13) (Fin 13) ℚ :=
  Matrix.of fun i j => if i = j then 1 / 1000000 else 0

/-- A 3×3 innovation covariance with positive trace (trace 3). -/
def Scov1 : Matrix (Fin 3) (Fin 3) ℚ := Matrix.of fun i j => if i = j then 1 else 0

end AdaptiveEKF

/-!
Real-valued model of the quaternion filter.  The quaternion, position,
velocity and gyro-bias slices of the flat 13-state are named fields;
float arithmetic is idealized as exact real arithmetic (the spec's 1e-9
norm tolerance absorbs float rounding).
-/

/-- A 3-vector of reals. -/
structure V3R where
  x : ℝ
  y : ℝ
  z : ℝ

/-- A quaternion (w, x, y, z) of reals. -/
structure QuatR where
  w : ℝ
  x : ℝ
  y : ℝ
  z : ℝ

/-- A 3×3 real matrix with named entries. -/
structure M3 where
  m11 : ℝ
  m12 : ℝ
  m13 : ℝ
  m21 : ℝ
  m22 : ℝ
  m23 : ℝ
  m31 : ℝ
  m32 : ℝ
  m33 : ℝ

/-- np.eye(3). -/
def M3.one : M3 := ⟨1, 0, 0, 0, 1, 0, 0, 0, 1⟩

/-- Matrix-vector product R @ v. -/
noncomputable def M3.mulVec (M : M3) (v : V3R) : V3R :=
  ⟨M.m11 * v.x + M.m12 * v.y + M.m13 * v.z,
   M.m21 * v.x + M.m22 * v.y + M.m23 * v.z,
   M.m31 * v.x + M.m32 * v.y + M.m33 * v.z⟩

noncomputable def v3Add (a b : V3R) : V3R := ⟨a.x + b.x, a.y + b.y, a.z + b.z⟩

noncomputable def v3Sub (a b : V3R) : V3R := ⟨a.x - b.x, a.y - b.y, a.z - b.z⟩

noncomputable def v3Smul (c : ℝ) (v : V3R) : V3R := ⟨c * v.x, c * v.y, c * v.z⟩

/-- Sum of squared quaternion components (w*w + x*x + y*y + z*z, as
written in _quat_to_rotmat). -/
noncomputable def quatNormSq (q : QuatR) : ℝ :=
  q.w * q.w + q.x * q.x + q.y * q.y + q.z * q.z

/-- np.linalg.norm of the quaternion slice. -/
noncomputable def quatNorm (q : QuatR) : ℝ := Real.sqrt (quatNormSq q)

/-- The in-place division state[0:4] /= norm. -/
noncomputable def quatNormalize (q : QuatR) : QuatR :=
  ⟨q.w / quatNorm q, q.x / quatNorm q, q.y / quatNorm q, q.z / quatNorm q⟩

/-- Omega @ q for the 4×4 rate matrix built in predict from the corrected
angular rate g. -/
noncomputable def omegaMulQ (g : V3R) (q : QuatR) : QuatR :=
  ⟨-(g.x * q.x) - g.y * q.y - g.z * q.z,
   g.x * q.w + g.z * q.y - g.y * q.z,
   g.y * q.w - g.z * q.x + g.x * q.z,
   g.z * q.w + g.y * q.x - g.x * q.y⟩

namespace AdaptiveEKF

/-- self.dt = 0.01. -/
noncomputable def dt : ℝ := 1 / 100

/-- The quaternion slice after the in-place Euler step
state[0:4] += (0.5 * Omega @ q) * dt, before renormalization. -/
noncomputable def eulerStepQuat (q : QuatR) (g : V3R) : QuatR :=
  let qdot := omegaMulQ g q
  ⟨q.w + (1 / 2) * qdot.w * dt, q.x + (1 / 2) * qdot.x * dt,
   q.y + (1 / 2) * qdot.y * dt, q.z + (1 / 2) * qdot.z * dt⟩

/-- AdaptiveEKF._quat_to_rotmat of src/core/kalman_filter.py: normalizes
the quaternion first and returns the identity when the norm is below
1e-10. -/
noncomputable def quat_to_rotmat (q : QuatR) : M3 :=
  let norm := quatNorm q
  if norm < 1e-10 then M3.one
  else
    let w := q.w / norm
    let x := q.x / norm
    let y := q.y / norm
    let z := q.z / norm
    ⟨1 - 2*y*y - 2*z*z, 2*x*y - 2*w*z, 2*x*z + 2*w*y,
     2*x*y + 2*w*z, 1 - 2*x*x - 2*z*z, 2*y*z - 2*w*x,
     2*x*z - 2*w*y, 2*y*z + 2*w*x, 1 - 2*x*x - 2*y*y⟩

/-- The same matrix written with a single division by the squared norm
(the algebraic value of the normalize-then-multiply computation). -/
noncomputable def rotmatClosed (q : QuatR) : M3 :=
  let s := quatNormSq q
  ⟨(s - 2*q.y*q.y - 2*q.z*q.z) / s, (2*q.x*q.y - 2*q.w*q.z) / s, (2*q.x*q.z + 2*q.w*q.y) / s,
   (2*q.x*q.y + 2*q.w*q.z) / s, (s - 2*q.x*q.x - 2*q.z*q.z) / s, (2*q.y*q.z - 2*q.w*q.x) / s,
   (2*q.x*q.z - 2*q.w*q.y) / s, (2*q.y*q.z + 2*q.w*q.x) / s, (s - 2*q.x*q.x - 2*q.y*q.y) / s⟩

/-- Every entry lies in [−1, 1] (no overflow, hence no Inf/NaN can arise
from these entries downstream). -/
def M3.bounded (M : M3) : Prop :=
  |M.m11| ≤ 1 ∧ |M.m12| ≤ 1 ∧ |M.m13| ≤ 1 ∧
  |M.m21| ≤ 1 ∧ |M.m22| ≤ 1 ∧ |M.m23| ≤ 1 ∧
  |M.m31| ≤ 1 ∧ |M.m32| ≤ 1 ∧ |M.m33| ≤ 1

/-- The state-transition Jacobian of _compute_jacobian: the identity with
the quaternion block I₄ + 0.5·dt·Omega and the position-from-velocity
block dt·I₃ overwritten (the accel/bias partials stay identity/zero). -/
noncomputable def state_jacobian (g : V3R) : Matrix (Fin 13) (Fin 13) ℝ :=
  Matrix.of fun i j =>
    if hi : i.val < 4 then
      if hj : j.val < 4 then
        (if i = j then 1 else 0) +
          (1 / 2) * dt *
            (!![0, -g.x, -g.y, -g.z;
                g.x, 0, g.z, -g.y;
                g.y, -g.z, 0, g.x;
                g.z, g.y, -g.x, 0] ⟨i.val, hi⟩ ⟨j.val, hj⟩)
      else 0
    else if 4 ≤ i.val ∧ i.val < 7 ∧ j.val = i.val + 3 then dt
    else if i = j then 1 else 0

/-- The gravity constant subtracted in predict: np.array([0, 0, 9.81]). -/
noncomputable def gravityVec : V3R := ⟨0, 0, 9.81⟩

/-- The EKF object: the four slices of self.state plus self.P and
self.Q. -/
structure EKFState where
  q : QuatR
  pos : V3R
  vel : V3R
  gyroBias : V3R
  P : Matrix (Fin 13) (Fin 13) ℝ
  Q : Matrix (Fin 13) (Fin 13) ℝ

/-- AdaptiveEKF.__init__: state (1,0,…,0), P = 0.1·I, Q = 0.001·I. -/
noncomputable def initEKF : EKFState :=
  { q := ⟨1, 0, 0, 0⟩
    pos := ⟨0, 0, 0⟩
    vel := ⟨0, 0, 0⟩
    gyroBias := ⟨0, 0, 0⟩
    P := Matrix.of fun i j => if i = j then 1 / 10 else 0
    Q := Matrix.of fun i j => if i = j then 1 / 1000 else 0 }

/-- AdaptiveEKF.predict.  The local q = self.state[0:4] is a numpy view:
the in-place Euler step and renormalization mutate the viewed storage, so
by the time R = self._quat_to_rotmat(q) runs, q holds the renormalized
post-step quaternion — the rotation matrix is built from that value. -/
noncomputable def predict (s : EKFState) (gyro accel : V3R) : EKFState :=
  let gyro_corrected := v3Sub gyro s.gyroBias
  let qNew := quatNormalize (eulerStepQuat s.q gyro_corrected)
  let R := quat_to_rotmat qNew
  let accel_world := v3Sub (R.mulVec accel) gravityVec
  let velNew := v3Add s.vel (v3Smul dt accel_world)
  let posNew := v3Add s.pos (v3Smul dt velNew)
  { q := qNew, pos := posNew, vel := velNew, gyroBias := s.gyroBias,
    P := state_jacobian gyro_corrected * s.P * Matrix.transpose (state_jacobian gyro_corrected) + s.Q,
    Q := s.Q }

/-- The rotation matrix predict builds (and applies to accel). -/
noncomputable def predictRotmatUsed (s : EKFState) (gyro : V3R) : M3 :=
  quat_to_rotmat (quatNormalize (eulerStepQuat s.q (v3Sub gyro s.gyroBias)))

/-- One call of the external 100 Hz loop: predict(gyro, accel) or
update(accel_meas). -/
inductive EKFCall where
  | predict (gyro accel : V3R) : EKFCall
  | update (accel_meas : V3R) : EKFCall

/-- Effect of one call on the object state.  update raises a ValueError
while forming S = H @ P @ H.T + R (3×3 plus 6×6 cannot broadcast — see
the shape analysis of updateS), and that expression is evaluated before
any assignment to state, P or Q, so a failed update leaves the object
unchanged. -/
noncomputable def ekfStep (s : EKFState) : EKFCall → EKFState
  | EKFCall.predict gyro accel => predict s gyro accel
  | EKFCall.update _ => s

/-- A sequence of predict/update calls on the filter. -/
noncomputable def ekfRun : EKFState → List EKFCall → EKFState
  | s, [] => s
  | s, c :: rest => ekfRun (ekfStep s c) rest

/-- A gyro reading whose Euler step visibly rotates the quaternion in one
dt: (200, 0, 0) rad/s turns (1,0,0,0) into the un-normalized (1,1,0,0). -/
noncomputable def c2Gyro : V3R := ⟨200, 0, 0⟩

end AdaptiveEKF

namespace RootEKF

/-- AdaptiveEKF._quat_to_rotmat of the duplicate src/kalman_filter.py: no
normalization and no degenerate-norm guard. -/
noncomputable def quat_to_rotmat (q : QuatR) : M3 :=
  ⟨1 - 2*q.y*q.y - 2*q.z*q.z, 2*q.x*q.y - 2*q.w*q.z, 2*q.x*q.z + 2*q.w*q.y,
   2*q.x*q.y + 2*q.w*q.z, 1 - 2*q.x*q.x - 2*q.z*q.z, 2*q.y*q.z - 2*q.w*q.x,
   2*q.x*q.z - 2*q.w*q.y, 2*q.y*q.z + 2*q.w*q.x, 1 - 2*q.x*q.x - 2*q.y*q.y⟩

end RootEKF

/-!
Theorems.
-/

/-- C1: refuted as stated — update never executes to completion.  For the
13×13 covariance of every reachable state (any entries) and every
quaternion, the innovation-covariance expression S = H·P·Hᵗ + R is not a
well-formed sum: H·P·Hᵗ is 3×3 while the EKF's R is np.eye(6)·0.01, a
6×6 matrix, so numpy raises a broadcast ValueError on every update call
(the spec intends R to be the fixed 3×3 measurement noise). -/
theorem updateS_always_fails (qw qx qy qz : ℚ) (P : ℕ → ℕ → ℚ) :
    AdaptiveEKF.updateS qw qx qy qz P = none := rfl

namespace SelfCalibrator

theorem detect_stationary_window (sqrtq : ℚ → ℚ) (st : CalibState) :
    (detect_stationary sqrtq st).window = st.window := by
  unfold detect_stationary
  dsimp only
  split <;> rfl

theorem detect_stationary_maxlen (sqrtq : ℚ → ℚ) (st : CalibState) :
    (detect_stationary sqrtq st).window_maxlen = st.window_maxlen := by
  unfold detect_stationary
  dsimp only
  split <;> rfl

theorem detect_stationary_calibrated (sqrtq : ℚ → ℚ) (st : CalibState) :
    (detect_stationary sqrtq st).is_calibrated = st.is_calibrated := by
  unfold detect_stationary
  dsimp only
  split <;> rfl

theorem auto_calibrate_window (opt : OptOracle) (st : CalibState) :
    (auto_calibrate opt st).1.window = st.window := by
  unfold auto_calibrate
  rcases st with ⟨cap, w, ic, cd, stat⟩
  rcases stat with _ | ⟨sa, sg⟩
  · rfl
  · dsimp only
    rcases opt w cd.gravity_magnitude with _ | ⟨success, finite, b, sc⟩
    · rfl
    · dsimp only
      split <;> rfl

theorem auto_calibrate_maxlen (opt : OptOracle) (st : CalibState) :
    (auto_calibrate opt st).1.window_maxlen = st.window_maxlen := by
  unfold auto_calibrate
  rcases st with ⟨cap, w, ic, cd, stat⟩
  rcases stat with _ | ⟨sa, sg⟩
  · rfl
  · dsimp only
    rcases opt w cd.gravity_magnitude with _ | ⟨success, finite, b, sc⟩
    · rfl
    · dsimp only
      split <;> rfl

theorem addSampleStage1_window (sqrtq : ℚ → ℚ) (st : CalibState) (a g : QV3) :
    (addSampleStage1 sqrtq st a g).window
        = appendWindow st.window_maxlen st.window (a, g) ∧
      (addSampleStage1 sqrtq st a g).window_maxlen = st.window_maxlen := by
  unfold addSampleStage1
  dsimp only
  split
  · rw [detect_stationary_window, detect_stationary_maxlen]
    exact ⟨rfl, rfl⟩
  · exact ⟨rfl, rfl⟩

theorem add_sample_window (sqrtq : ℚ → ℚ) (opt : OptOracle) (st : CalibState)
    (a g : QV3) :
    (add_sample sqrtq opt st a g).1.window
        = appendWindow st.window_maxlen st.window (a, g) ∧
      (add_sample sqrtq opt st a g).1.window_maxlen = st.window_maxlen := by
  unfold add_sample
  dsimp only
  split
  · rw [auto_calibrate_window, auto_calibrate_maxlen]
    exact addSampleStage1_window sqrtq st a g
  · exact addSampleStage1_window sqrtq st a g

theorem runAddSamples_snoc (sqrtq : ℚ → ℚ) (opt : OptOracle)
    (xs : List (QV3 × QV3)) (p : QV3 × QV3) :
    ∀ st : CalibState,
      (runAddSamples sqrtq opt st (xs ++ [p])).1 =
        (add_sample sqrtq opt (runAddSamples sqrtq opt st xs).1 p.1 p.2).1 := by
  induction xs with
  | nil =>
    intro st
    rcases p with ⟨a, g⟩
    rfl
  | cons hd tl ih =>
    intro st
    rcases hd with ⟨a, g⟩
    simpa [runAddSamples] using ih (add_sample sqrtq opt st a g).1

theorem runAddSamples_window_eq (sqrtq : ℚ → ℚ) (opt : OptOracle) (cap : ℕ) :
    ∀ samples : List (QV3 × QV3),
      (runAddSamples sqrtq opt (initCalibState cap) samples).1.window
          = samples.drop (samples.length - cap) ∧
        (runAddSamples sqrtq opt (initCalibState cap) samples).1.window_maxlen = cap := by
  intro samples
  induction samples using List.reverseRecOn with
  | nil =>
    refine ⟨?_, rfl⟩
    simp [runAddSamples, initCalibState]
  | append_singleton xs p ih =>
    rw [runAddSamples_snoc]
    rcases add_sample_window sqrtq opt (runAddSamples sqrtq opt (initCalibState cap) xs).1 p.1 p.2
      with ⟨hw, hm⟩
    refine ⟨?_, by rw [hm, ih.2]⟩
    rw [hw, ih.2, ih.1]
    unfold appendWindow
    have hlen : (xs.drop (xs.length - cap)).length = xs.length - (xs.length - cap) :=
      List.length_drop _ _
    rw [← @List.drop_append_of_le_length _ _ [(p.1, p.2)] _ (by omega)]
    rw [List.drop_drop]
    have hp : xs ++ [p] = xs ++ [(p.1, p.2)] := by rw [Prod.mk.eta]
    rw [hp]
    congr 1
    simp only [List.length_append, List.length_singleton]
    omega

/-- C9: for every square-root model, every optimizer behaviour, every
configured capacity and every sample sequence fed through add_sample, the
window never exceeds its capacity and always holds exactly the most
recent min(n, capacity) samples in arrival order (FIFO eviction). -/
theorem window_capacity_fifo (sqrtq : ℚ → ℚ) (opt : OptOracle) (cap : ℕ)
    (samples : List (QV3 × QV3)) :
    (runAddSamples sqrtq opt (initCalibState cap) samples).1.window.length ≤ cap ∧
      (runAddSamples sqrtq opt (initCalibState cap) samples).1.window
        = samples.drop (samples.length - cap) := by
  rcases runAddSamples_window_eq sqrtq opt cap samples with ⟨hw, _⟩
  refine ⟨?_, hw⟩
  rw [hw]
  have := List.length_drop (samples.length - cap) samples
  omega

set_option maxRecDepth 100000 in
/-- C3: refuted as stated — a sequence with no stationary interval makes
add_sample raise.  With capacity 101, feeding 101 samples whose gyro
alternates 0/1 keeps the last-50 gyro variance at 1/4 (above the 0.001
gate), so when the window fills, _auto_calibrate reads the never-assigned
self.stationary_gyro attribute and the AttributeError escapes to the
caller. -/
theorem add_sample_raises_without_stationary :
    (runAddSamples ratSqrt raiseOracle (initCalibState 101) c3Samples).2 = true := by
  with_unfolding_all decide

/-- C3 amended: add_sample raises exactly when the window reaches full
capacity while no stationary interval has ever been detected (the
stationary attributes are still unset); in every other situation the call
returns normally. -/
theorem add_sample_error_iff (sqrtq : ℚ → ℚ) (opt : OptOracle) (st : CalibState)
    (a g : QV3) :
    (add_sample sqrtq opt st a g).2 = some CalibErr.attributeError ↔
      ((addSampleStage1 sqrtq st a g).window.length = st.window_maxlen ∧
        (addSampleStage1 sqrtq st a g).stationary = none) := by
  unfold add_sample
  dsimp only
  by_cases h : (addSampleStage1 sqrtq st a g).window.length = st.window_maxlen
  · rw [if_pos h]
    unfold auto_calibrate
    rcases hstat : (addSampleStage1 sqrtq st a g).stationary with _ | ⟨sa, sg⟩
    · simp [h, hstat]
    · dsimp only
      rcases opt (addSampleStage1 sqrtq st a g).window
          ((addSampleStage1 sqrtq st a g).calibration_data.gravity_magnitude)
        with _ | ⟨su, fi, b, sc⟩
      · simp [hstat]
      · dsimp only
        split <;> simp [hstat]
  · rw [if_neg h]
    simp [h]

/-- C3 amended, witness: a calibrator with capacity 1 fills on the first
sample, before any stationarity detection is possible, and the very first
add_sample call raises. -/
theorem add_sample_error_iff_witness :
    (add_sample ratSqrt raiseOracle (initCalibState 1) ⟨0, 0, 0⟩ ⟨0, 0, 0⟩).2
      = some CalibErr.attributeError :=
  (add_sample_error_iff ratSqrt raiseOracle (initCalibState 1) ⟨0, 0, 0⟩ ⟨0, 0, 0⟩).mpr
    (by with_unfolding_all decide)

/-- C4: refuted as stated — on a failed fit the calibrator is not marked
uncalibrated.  Starting from a state whose earlier fit succeeded
(is_calibrated = true), a non-converging optimizer run resets accel
bias/scale to the seeds but leaves is_calibrated true. -/
theorem auto_calibrate_failure_keeps_flag :
    (auto_calibrate failOracle c4State).1.is_calibrated = true ∧
      (auto_calibrate failOracle c4State).1.calibration_data.accel_bias = ⟨0, 0, 0⟩ ∧
      (auto_calibrate failOracle c4State).1.calibration_data.accel_scale = ⟨1, 1, 1⟩ := by
  with_unfolding_all decide

/-- C4 amended: whenever the optimizer raises, fails to converge, or
returns non-finite parameters, _auto_calibrate sets accel_bias to the
zero vector and accel_scale to the unit vector (the seeds) and sets
gyro_bias from the stationary snapshot — but is_calibrated keeps
whatever value it had before the call (it is false afterwards only if no
earlier fit had succeeded). -/
theorem auto_calibrate_failure_fallback (opt : OptOracle) (st : CalibState)
    (sa sg : QV3) (hstat : st.stationary = some (sa, sg))
    (hfail : (opt st.window st.calibration_data.gravity_magnitude).failed = true) :
    (auto_calibrate opt st).1.calibration_data.accel_bias = ⟨0, 0, 0⟩ ∧
      (auto_calibrate opt st).1.calibration_data.accel_scale = ⟨1, 1, 1⟩ ∧
      (auto_calibrate opt st).1.calibration_data.gyro_bias = sg ∧
      (auto_calibrate opt st).1.is_calibrated = st.is_calibrated := by
  unfold auto_calibrate
  rw [hstat]
  dsimp only
  rcases hopt : opt st.window st.calibration_data.gravity_magnitude
    with _ | ⟨su, fi, b, sc⟩
  · exact ⟨rfl, rfl, rfl, rfl⟩
  · dsimp only
    have hsf : (su && fi) = false := by
      rw [hopt] at hfail
      cases su <;> cases fi <;> simp_all [OptOutcome.failed]
    rw [if_neg (by simp [hsf])]
    exact ⟨rfl, rfl, rfl, rfl⟩

/-- C4 amended, witness: the failure fallback applied to the concrete
previously-calibrated state. -/
theorem auto_calibrate_failure_fallback_witness :
    c4State.stationary = some (⟨0, 0, 1⟩, ⟨1/100, 0, 0⟩) ∧
      (failOracle c4State.window c4State.calibration_data.gravity_magnitude).failed = true ∧
      ((auto_calibrate failOracle c4State).1.calibration_data.accel_bias = ⟨0, 0, 0⟩ ∧
        (auto_calibrate failOracle c4State).1.calibration_data.accel_scale = ⟨1, 1, 1⟩ ∧
        (auto_calibrate failOracle c4State).1.calibration_data.gyro_bias = ⟨1/100, 0, 0⟩ ∧
        (auto_calibrate failOracle c4State).1.is_calibrated = c4State.is_calibrated) :=
  ⟨rfl, rfl,
    auto_calibrate_failure_fallback failOracle c4State ⟨0, 0, 1⟩ ⟨1/100, 0, 0⟩ rfl rfl⟩

set_option maxRecDepth 100000 in
/-- C5: refuted as stated — the calibration record is mutated before the
first successful fit.  After 101 perfectly still samples with accel
(0,0,1), stationarity detection fires (window far from its 1000-capacity,
so no fit was ever attempted): is_calibrated is still false, yet
get_calibration reports gravity_magnitude 1 instead of the constructed
default 9.81. -/
theorem get_calibration_mutates_before_fit :
    (runAddSamples ratSqrt raiseOracle (initCalibState 1000) c5Samples).1.is_calibrated
        = false ∧
      (get_calibration
          (runAddSamples ratSqrt raiseOracle (initCalibState 1000) c5Samples).1).gravity_magnitude
        = 1 ∧
      get_calibration (runAddSamples ratSqrt raiseOracle (initCalibState 1000) c5Samples).1
        ≠ initCalibData := by
  with_unfolding_all decide

theorem detect_stationary_defaultsInv (sqrtq : ℚ → ℚ) (st : CalibState)
    (h : defaultsInv st) : defaultsInv (detect_stationary sqrtq st) := by
  unfold detect_stationary
  dsimp only
  split
  · exact ⟨fun hic => h.1 hic, h.2.1, h.2.2⟩
  · exact h

theorem auto_calibrate_defaultsInv (opt : OptOracle) (st : CalibState)
    (h : defaultsInv st) : defaultsInv (auto_calibrate opt st).1 := by
  unfold auto_calibrate
  rcases hstat : st.stationary with _ | ⟨sa, sg⟩
  · exact h
  · dsimp only
    rcases opt st.window st.calibration_data.gravity_magnitude with _ | ⟨su, fi, b, sc⟩
    · exact ⟨fun _ => ⟨rfl, rfl⟩, h.2.1, h.2.2⟩
    · dsimp only
      split
      · exact ⟨fun hic => Bool.noConfusion hic, h.2.1, h.2.2⟩
      · exact ⟨fun _ => ⟨rfl, rfl⟩, h.2.1, h.2.2⟩

theorem add_sample_defaultsInv (sqrtq : ℚ → ℚ) (opt : OptOracle) (st : CalibState)
    (a g : QV3) (h : defaultsInv st) : defaultsInv (add_sample sqrtq opt st a g).1 := by
  have h1 : defaultsInv (addSampleStage1 sqrtq st a g) := by
    unfold addSampleStage1
    dsimp only
    split
    · exact detect_stationary_defaultsInv sqrtq _ ⟨fun hic => h.1 hic, h.2.1, h.2.2⟩
    · exact ⟨fun hic => h.1 hic, h.2.1, h.2.2⟩
  unfold add_sample
  dsimp only
  split
  · exact auto_calibrate_defaultsInv opt _ h1
  · exact h1

theorem runAddSamples_defaultsInv (sqrtq : ℚ → ℚ) (opt : OptOracle) :
    ∀ (samples : List (QV3 × QV3)) (st : CalibState), defaultsInv st →
      defaultsInv (runAddSamples sqrtq opt st samples).1 := by
  intro samples
  induction samples with
  | nil => exact fun st h => h
  | cons p rest ih =>
    intro st h
    rcases p with ⟨a, g⟩
    exact ih _ (add_sample_defaultsInv sqrtq opt st a g h)

/-- C5 amended: until the first successful fit (is_calibrated still
false), accel_bias, accel_scale, gyro_scale and stationary_threshold of
the record returned by get_calibration keep their constructed defaults;
gravity_magnitude (on stationary detection) and gyro_bias (on a failed
auto-calibration) may already differ. -/
theorem defaults_until_first_fit (sqrtq : ℚ → ℚ) (opt : OptOracle) (cap : ℕ)
    (samples : List (QV3 × QV3))
    (h : (runAddSamples sqrtq opt (initCalibState cap) samples).1.is_calibrated = false) :
    (get_calibration (runAddSamples sqrtq opt (initCalibState cap) samples).1).accel_bias
        = ⟨0, 0, 0⟩ ∧
      (get_calibration (runAddSamples sqrtq opt (initCalibState cap) samples).1).accel_scale
        = ⟨1, 1, 1⟩ ∧
      (get_calibration (runAddSamples sqrtq opt (initCalibState cap) samples).1).gyro_scale
        = ⟨1, 1, 1⟩ ∧
      (get_calibration (runAddSamples sqrtq opt (initCalibState cap) samples).1).stationary_threshold
        = 1 / 20 := by
  have hinv := runAddSamples_defaultsInv sqrtq opt samples (initCalibState cap)
    ⟨fun _ => ⟨rfl, rfl⟩, rfl, rfl⟩
  rcases hinv with ⟨hbs, hgs, hth⟩
  rcases hbs h with ⟨hb, hs⟩
  exact ⟨hb, hs, hgs, hth⟩

/-- C5 amended, witness: on the freshly constructed calibrator (no
samples yet), is_calibrated is false and the four protected fields hold
their defaults. -/
theorem defaults_until_first_fit_witness :
    (runAddSamples ratSqrt raiseOracle (initCalibState 3) []).1.is_calibrated = false ∧
      ((get_calibration (runAddSamples ratSqrt raiseOracle (initCalibState 3) []).1).accel_bias
          = ⟨0, 0, 0⟩ ∧
        (get_calibration (runAddSamples ratSqrt raiseOracle (initCalibState 3) []).1).accel_scale
          = ⟨1, 1, 1⟩ ∧
        (get_calibration (runAddSamples ratSqrt raiseOracle (initCalibState 3) []).1).gyro_scale
          = ⟨1, 1, 1⟩ ∧
        (get_calibration
            (runAddSamples ratSqrt raiseOracle (initCalibState 3) []).1).stationary_threshold
          = 1 / 20) :=
  ⟨rfl, defaults_until_first_fit ratSqrt raiseOracle 3 [] rfl⟩

end SelfCalibrator

namespace AdaptiveEKF

theorem trace_Scov1 : Matrix.trace Scov1 = 3 := by
  simp [Scov1, Matrix.trace, Matrix.diag, Fin.sum_univ_succ]

theorem Qinit_diag (i : Fin 13) : Qinit i i = 1 / 1000 := by
  simp [Qinit]

theorem Qfloor_diag (i : Fin 13) : Qfloor i i = 1 / 1000000 := by
  simp [Qfloor]

theorem trace_Qinit : Matrix.trace Qinit = 13 / 1000 := by
  simp [Qinit, Matrix.trace, Matrix.diag, Fin.sum_univ_succ]
  norm_num

/-- C7: refuted in its deflation clause at the clamp floor.  With every
diagonal entry of Q already at 1e-6 (where repeated deflation ends up)
and a zero innovation against a positive-trace S, the small-innovation
branch runs, yet the trace is unchanged rather than decreased: the 0.999
scaling is undone entirely by the elementwise floor. -/
theorem adapt_noise_trace_at_floor :
    ¬ 2 * Matrix.trace Scov1 < normSq3 ⟨0, 0, 0⟩ ∧
      Matrix.trace (adapt_noise Qfloor ⟨0, 0, 0⟩ Scov1) = Matrix.trace Qfloor := by
  have hcond : ¬ 2 * Matrix.trace Scov1 < normSq3 (⟨0, 0, 0⟩ : QV3) := by
    rw [trace_Scov1]
    norm_num [normSq3]
  refine ⟨hcond, ?_⟩
  have hdiag : ∀ i : Fin 13, adapt_noise Qfloor ⟨0, 0, 0⟩ Scov1 i i = Qfloor i i := by
    intro i
    have he : adapt_noise Qfloor ⟨0, 0, 0⟩ Scov1 i i
        = max ((if 2 * Matrix.trace Scov1 < normSq3 ⟨0, 0, 0⟩ then (101 : ℚ) / 100
                else 999 / 1000) * Qfloor i i)
            (if i = i then (1 : ℚ) / 1000000 else 0) := rfl
    rw [he, if_neg hcond, if_pos rfl, Qfloor_diag i, max_eq_right (by norm_num)]
  simp only [Matrix.trace, Matrix.diag]
  exact Finset.sum_congr rfl fun i _ => hdiag i

/-- C7 amended: every element of Q is multiplied by 1.01 exactly when
yᵗ·y exceeds twice the trace of S and by 0.999 otherwise, then clamped
below elementwise (1e-6 on the diagonal, 0 off it); consequently a
large-innovation update strictly increases the trace (whenever the trace
is positive), and a small-innovation update never increases it — the
decrease is strict only until the diagonal reaches the 1e-6 floor, below
which it can never fall. -/
theorem adapt_noise_spec (Q : Matrix (Fin 13) (Fin 13) ℚ) (y : QV3)
    (S : Matrix (Fin 3) (Fin 3) ℚ) :
    (∀ i j, adapt_noise Q y S i j
        = max ((if 2 * Matrix.trace S < normSq3 y then 101 / 100 else 999 / 1000) * Q i j)
            (if i = j then 1 / 1000000 else 0)) ∧
    (2 * Matrix.trace S < normSq3 y → 0 < Matrix.trace Q →
        Matrix.trace Q < Matrix.trace (adapt_noise Q y S)) ∧
    (¬ 2 * Matrix.trace S < normSq3 y → (∀ i, 1 / 1000000 ≤ Q i i) →
        Matrix.trace (adapt_noise Q y S) ≤ Matrix.trace Q) ∧
    (∀ i, 1 / 1000000 ≤ adapt_noise Q y S i i) := by
  refine ⟨fun i j => rfl, ?_, ?_, ?_⟩
  · intro hN hQ
    have hsum : ∑ i, (101 / 100 : ℚ) * Q i i ≤ Matrix.trace (adapt_noise Q y S) := by
      unfold adapt_noise
      dsimp only
      rw [if_pos hN]
      simp only [Matrix.trace, Matrix.diag, Matrix.of_apply]
      exact Finset.sum_le_sum fun i _ => le_max_left _ _
    have htr : ∑ i, (101 / 100 : ℚ) * Q i i = (101 / 100) * Matrix.trace Q := by
      simp only [Matrix.trace, Matrix.diag, Finset.mul_sum]
    rw [htr] at hsum
    linarith
  · intro hN hfloor
    have hsum : Matrix.trace (adapt_noise Q y S) ≤ ∑ i, Q i i := by
      unfold adapt_noise
      dsimp only
      rw [if_neg hN]
      simp only [Matrix.trace, Matrix.diag, Matrix.of_apply]
      refine Finset.sum_le_sum fun i _ => ?_
      have hq := hfloor i
      refine max_le (by linarith) ?_
      simpa using hq
    simpa [Matrix.trace, Matrix.diag] using hsum
  · intro i
    have he : adapt_noise Q y S i i
        = max ((if 2 * Matrix.trace S < normSq3 y then (101 : ℚ) / 100 else 999 / 1000) * Q i i)
            (if i = i then (1 : ℚ) / 1000000 else 0) := rfl
    rw [he, if_pos rfl]
    exact le_max_right _ _

/-- C7 amended, witness: from the constructed Q = 0.001·I, a spike
innovation (10,0,0) against S = I₃ inflates the trace, and a zero
innovation deflates (here: does not increase) it. -/
theorem adapt_noise_spec_witness :
    (2 * Matrix.trace Scov1 < normSq3 ⟨10, 0, 0⟩ ∧ 0 < Matrix.trace Qinit ∧
        Matrix.trace Qinit < Matrix.trace (adapt_noise Qinit ⟨10, 0, 0⟩ Scov1)) ∧
      (¬ 2 * Matrix.trace Scov1 < normSq3 ⟨0, 0, 0⟩ ∧ (∀ i, 1 / 1000000 ≤ Qinit i i) ∧
        Matrix.trace (adapt_noise Qinit ⟨0, 0, 0⟩ Scov1) ≤ Matrix.trace Qinit) :=
  by
  have h1 : 2 * Matrix.trace Scov1 < normSq3 ⟨10, 0, 0⟩ := by
    rw [trace_Scov1]
    norm_num [normSq3]
  have h2 : 0 < Matrix.trace Qinit := by
    rw [trace_Qinit]
    norm_num
  have h3 : ¬ 2 * Matrix.trace Scov1 < normSq3 (⟨0, 0, 0⟩ : QV3) := by
    rw [trace_Scov1]
    norm_num [normSq3]
  have h4 : ∀ i : Fin 13, (1 : ℚ) / 1000000 ≤ Qinit i i := fun i => by
    rw [Qinit_diag i]
    norm_num
  exact ⟨⟨h1, h2, (adapt_noise_spec Qinit ⟨10, 0, 0⟩ Scov1).2.1 h1 h2⟩,
    ⟨h3, h4, (adapt_noise_spec Qinit ⟨0, 0, 0⟩ Scov1).2.2.1 h3 h4⟩⟩

end AdaptiveEKF

theorem quatNormSq_nonneg (q : QuatR) : 0 ≤ quatNormSq q := by
  unfold quatNormSq
  nlinarith [mul_self_nonneg q.w, mul_self_nonneg q.x, mul_self_nonneg q.y, mul_self_nonneg q.z]

theorem quatNorm_sq (q : QuatR) : quatNorm q * quatNorm q = quatNormSq q :=
  Real.mul_self_sqrt (quatNormSq_nonneg q)

theorem quatNorm_pos (q : QuatR) (h : 0 < quatNormSq q) : 0 < quatNorm q :=
  Real.sqrt_pos.mpr h

theorem quatNormSq_normalize (q : QuatR) (h : 0 < quatNormSq q) :
    quatNormSq (quatNormalize q) = 1 := by
  have hn : 0 < quatNorm q := quatNorm_pos q h
  have hcomp : ∀ a : ℝ, a / quatNorm q * (a / quatNorm q) = a * a / quatNormSq q := by
    intro a
    rw [div_mul_div_comm, quatNorm_sq]
  show q.w / quatNorm q * (q.w / quatNorm q) + q.x / quatNorm q * (q.x / quatNorm q) +
      q.y / quatNorm q * (q.y / quatNorm q) + q.z / quatNorm q * (q.z / quatNorm q) = 1
  rw [hcomp, hcomp, hcomp, hcomp, div_add_div_same, div_add_div_same, div_add_div_same]
  exact div_self (ne_of_gt h)

theorem quatNorm_normalize (q : QuatR) (h : 0 < quatNormSq q) :
    quatNorm (quatNormalize q) = 1 := by
  unfold quatNorm
  rw [quatNormSq_normalize q h, Real.sqrt_one]

theorem quatNormSq_of_unit (q : QuatR) (h : quatNormSq q = 1) :
    ¬ quatNorm q < 1e-10 := by
  unfold quatNorm
  rw [h, Real.sqrt_one]
  norm_num

namespace AdaptiveEKF

/-- The skew-symmetry of Omega makes the explicit-Euler step grow the
squared norm by exactly the factor 1 + (dt/2)²‖ω‖². -/
theorem quatNormSq_eulerStep (q : QuatR) (g : V3R) :
    quatNormSq (eulerStepQuat q g)
      = (1 + (dt / 2) ^ 2 * (g.x * g.x + g.y * g.y + g.z * g.z)) * quatNormSq q := by
  unfold eulerStepQuat omegaMulQ quatNormSq
  dsimp only
  ring

theorem quatNormSq_eulerStep_pos (q : QuatR) (g : V3R) (h : 0 < quatNormSq q) :
    0 < quatNormSq (eulerStepQuat q g) := by
  rw [quatNormSq_eulerStep]
  have hg : 0 ≤ (dt / 2) ^ 2 * (g.x * g.x + g.y * g.y + g.z * g.z) :=
    mul_nonneg (sq_nonneg _)
      (by nlinarith [mul_self_nonneg g.x, mul_self_nonneg g.y, mul_self_nonneg g.z])
  nlinarith

theorem predict_normSq (s : EKFState) (gyro accel : V3R) (h : 0 < quatNormSq s.q) :
    quatNormSq (predict s gyro accel).q = 1 := by
  have hq : (predict s gyro accel).q
      = quatNormalize (eulerStepQuat s.q (v3Sub gyro s.gyroBias)) := rfl
  rw [hq]
  exact quatNormSq_normalize _ (quatNormSq_eulerStep_pos _ _ h)

theorem ekfRun_normSq (calls : List EKFCall) :
    ∀ s : EKFState, quatNormSq s.q = 1 → quatNormSq (ekfRun s calls).q = 1 := by
  induction calls with
  | nil => exact fun s h => h
  | cons c rest ih =>
    intro s h
    cases c with
    | predict gyro accel =>
      exact ih _ (predict_normSq s gyro accel (by rw [h]; norm_num))
    | update m => exact ih _ h

/-- C6: along every sequence of predict and update calls started from the
constructed filter, the Euclidean norm of the orientation quaternion is
exactly 1 (in exact arithmetic) after each call: predict renormalizes an
Euler step that can never vanish, and update's exception fires before any
state mutation, leaving the quaternion untouched. -/
theorem quaternion_unit_norm_invariant (calls : List EKFCall) :
    quatNorm (ekfRun initEKF calls).q = 1 := by
  have h : quatNormSq (ekfRun initEKF calls).q = 1 := by
    apply ekfRun_normSq
    show quatNormSq ⟨1, 0, 0, 0⟩ = 1
    norm_num [quatNormSq]
  unfold quatNorm
  rw [h, Real.sqrt_one]

theorem quat_to_rotmat_closed (q : QuatR) (h : ¬ quatNorm q < 1e-10) :
    quat_to_rotmat q = rotmatClosed q := by
  have hge : (1e-10 : ℝ) ≤ quatNorm q := not_lt.mp h
  have hnpos : 0 < quatNorm q := lt_of_lt_of_le (by norm_num) hge
  have hn0 : quatNorm q ≠ 0 := ne_of_gt hnpos
  have hs : quatNorm q * quatNorm q = quatNormSq q := quatNorm_sq q
  unfold quat_to_rotmat rotmatClosed
  dsimp only
  rw [if_neg h, M3.mk.injEq]
  refine ⟨?_, ?_, ?_, ?_, ?_, ?_, ?_, ?_, ?_⟩ <;>
    (rw [← hs]; field_simp; try ring)

theorem rotmat_normalize_eq (v : QuatR) (h : ¬ quatNorm v < 1e-10) :
    quat_to_rotmat (quatNormalize v) = quat_to_rotmat v := by
  have hge : (1e-10 : ℝ) ≤ quatNorm v := not_lt.mp h
  have hnpos : 0 < quatNorm v := lt_of_lt_of_le (by norm_num) hge
  have hn0 : quatNorm v ≠ 0 := ne_of_gt hnpos
  have hspos : 0 < quatNormSq v := by
    rw [← quatNorm_sq v]
    exact mul_pos hnpos hnpos
  have h1 : quatNormSq (quatNormalize v) = 1 := quatNormSq_normalize v hspos
  have hlt1 : ¬ quatNorm (quatNormalize v) < 1e-10 := quatNormSq_of_unit _ h1
  rw [quat_to_rotmat_closed _ hlt1, quat_to_rotmat_closed _ h]
  unfold rotmatClosed
  dsimp only
  rw [h1]
  have pw : (quatNormalize v).w = v.w / quatNorm v := rfl
  have px : (quatNormalize v).x = v.x / quatNorm v := rfl
  have py : (quatNormalize v).y = v.y / quatNorm v := rfl
  have pz : (quatNormalize v).z = v.z / quatNorm v := rfl
  rw [pw, px, py, pz, M3.mk.injEq]
  have hs := quatNorm_sq v
  refine ⟨?_, ?_, ?_, ?_, ?_, ?_, ?_, ?_, ?_⟩ <;>
    (rw [← hs]; field_simp; try ring)

/-- C8: the degenerate-quaternion guard.  A quaternion whose norm is
below 1e-10 yields the identity matrix; on the complementary branch the
divisor is bounded away from zero and every resulting entry lies in
[−1, 1], the exact-arithmetic reading of never producing NaN or Inf. -/
theorem rotmat_guard_and_bounded (q : QuatR) :
    (quatNorm q < 1e-10 → quat_to_rotmat q = M3.one) ∧
      M3.bounded (quat_to_rotmat q) := by
  have hid : quatNorm q < 1e-10 → quat_to_rotmat q = M3.one := by
    intro h
    unfold quat_to_rotmat
    dsimp only
    rw [if_pos h]
  refine ⟨hid, ?_⟩
  by_cases h : quatNorm q < 1e-10
  · rw [hid h]
    unfold M3.bounded M3.one
    norm_num
  · rw [quat_to_rotmat_closed q h]
    have hge : (1e-10 : ℝ) ≤ quatNorm q := not_lt.mp h
    have hnpos : 0 < quatNorm q := lt_of_lt_of_le (by norm_num) hge
    have hspos : 0 < quatNormSq q := by
      rw [← quatNorm_sq q]
      exact mul_pos hnpos hnpos
    have hsdef : quatNormSq q = q.w * q.w + q.x * q.x + q.y * q.y + q.z * q.z := rfl
    have habs : ∀ a : ℝ, -quatNormSq q ≤ a → a ≤ quatNormSq q → |a / quatNormSq q| ≤ 1 := by
      intro a h1 h2
      rw [abs_div, abs_of_pos hspos, div_le_one hspos]
      exact abs_le.mpr ⟨h1, h2⟩
    unfold rotmatClosed M3.bounded
    dsimp only
    refine ⟨habs _ ?_ ?_, habs _ ?_ ?_, habs _ ?_ ?_, habs _ ?_ ?_, habs _ ?_ ?_,
        habs _ ?_ ?_, habs _ ?_ ?_, habs _ ?_ ?_, habs _ ?_ ?_⟩
    · nlinarith [hsdef, mul_self_nonneg q.w, mul_self_nonneg q.x]
    · nlinarith [hsdef, mul_self_nonneg q.y, mul_self_nonneg q.z]
    · nlinarith [hsdef, sq_nonneg (q.x + q.y), sq_nonneg (q.w - q.z)]
    · nlinarith [hsdef, sq_nonneg (q.x - q.y), sq_nonneg (q.w + q.z)]
    · nlinarith [hsdef, sq_nonneg (q.x + q.z), sq_nonneg (q.w + q.y)]
    · nlinarith [hsdef, sq_nonneg (q.x - q.z), sq_nonneg (q.w - q.y)]
    · nlinarith [hsdef, sq_nonneg (q.x + q.y), sq_nonneg (q.w + q.z)]
    · nlinarith [hsdef, sq_nonneg (q.x - q.y), sq_nonneg (q.w - q.z)]
    · nlinarith [hsdef, mul_self_nonneg q.w, mul_self_nonneg q.y]
    · nlinarith [hsdef, mul_self_nonneg q.x, mul_self_nonneg q.z]
    · nlinarith [hsdef, sq_nonneg (q.y + q.z), sq_nonneg (q.w - q.x)]
    · nlinarith [hsdef, sq_nonneg (q.y - q.z), sq_nonneg (q.w + q.x)]
    · nlinarith [hsdef, sq_nonneg (q.x + q.z), sq_nonneg (q.w - q.y)]
    · nlinarith [hsdef, sq_nonneg (q.x - q.z), sq_nonneg (q.w + q.y)]
    · nlinarith [hsdef, sq_nonneg (q.y + q.z), sq_nonneg (q.w + q.x)]
    · nlinarith [hsdef, sq_nonneg (q.y - q.z), sq_nonneg (q.w - q.x)]
    · nlinarith [hsdef, mul_self_nonneg q.w, mul_self_nonneg q.z]
    · nlinarith [hsdef, mul_self_nonneg q.x, mul_self_nonneg q.y]

/-- C8, witness: the zero quaternion falls under the guard and produces
the (bounded) identity matrix. -/
theorem rotmat_guard_witness :
    quatNorm ⟨0, 0, 0, 0⟩ < 1e-10 ∧ quat_to_rotmat ⟨0, 0, 0, 0⟩ = M3.one := by
  have h : quatNorm (⟨0, 0, 0, 0⟩ : QuatR) < 1e-10 := by
    have h0 : quatNormSq (⟨0, 0, 0, 0⟩ : QuatR) = 0 := by norm_num [quatNormSq]
    unfold quatNorm
    rw [h0, Real.sqrt_zero]
    norm_num
  exact ⟨h, (rotmat_guard_and_bounded ⟨0, 0, 0, 0⟩).1 h⟩

/-- C2: refuted as stated — the rotation matrix predict applies to the
accelerometer is not the one of the pre-update quaternion.  From the
initial state with gyro (200,0,0), the Euler step turns (1,0,0,0) into
(1,1,0,0) in place (q is a view of state[0:4]), and the matrix actually
used is the 90°-about-x rotation of that post-step value, while the
pre-update quaternion gives the identity. -/
theorem predict_rotmat_not_pre_update :
    predictRotmatUsed initEKF c2Gyro ≠ quat_to_rotmat initEKF.q := by
  intro hEq
  have hstep : eulerStepQuat initEKF.q (v3Sub c2Gyro initEKF.gyroBias) = ⟨1, 1, 0, 0⟩ := by
    unfold initEKF c2Gyro eulerStepQuat omegaMulQ v3Sub dt
    dsimp only
    norm_num
  have hnormv : quatNormSq (⟨1, 1, 0, 0⟩ : QuatR) = 2 := by norm_num [quatNormSq]
  have hltv : ¬ quatNorm (⟨1, 1, 0, 0⟩ : QuatR) < 1e-10 := by
    unfold quatNorm
    rw [hnormv]
    intro hcon
    have h1 : (1 : ℝ) ≤ Real.sqrt 2 := by
      rw [show (1 : ℝ) = Real.sqrt 1 from (Real.sqrt_one).symm]
      exact Real.sqrt_le_sqrt (by norm_num)
    norm_num at hcon
    linarith
  have hused : predictRotmatUsed initEKF c2Gyro = quat_to_rotmat ⟨1, 1, 0, 0⟩ := by
    unfold predictRotmatUsed
    rw [hstep]
    exact rotmat_normalize_eq _ hltv
  have hq0 : initEKF.q = ⟨1, 0, 0, 0⟩ := rfl
  have hnorm1 : quatNormSq (⟨1, 0, 0, 0⟩ : QuatR) = 1 := by norm_num [quatNormSq]
  have hlt1 : ¬ quatNorm (⟨1, 0, 0, 0⟩ : QuatR) < 1e-10 := quatNormSq_of_unit _ hnorm1
  rw [hused, hq0, quat_to_rotmat_closed _ hltv, quat_to_rotmat_closed _ hlt1] at hEq
  have h22 := congrArg M3.m22 hEq
  unfold rotmatClosed at h22
  dsimp only at h22
  rw [hnormv, hnorm1] at h22
  norm_num at h22

/-- C2 amended: the rotation matrix predict uses is the one of the
post-update quaternion — the quaternion after the Euler step and
renormalization, equivalently (by scale invariance of the helper) of the
un-normalized Euler-stepped quaternion — and the vector subtracted from
the rotated accelerometer reading is the fixed constant (0, 0, 9.81). -/
theorem predict_rotmat_post_update (s : EKFState) (gyro accel : V3R)
    (h : ¬ quatNorm (eulerStepQuat s.q (v3Sub gyro s.gyroBias)) < 1e-10) :
    predictRotmatUsed s gyro
        = quat_to_rotmat (eulerStepQuat s.q (v3Sub gyro s.gyroBias)) ∧
      (predict s gyro accel).vel
        = v3Add s.vel
            (v3Smul dt (v3Sub (M3.mulVec (predictRotmatUsed s gyro) accel) ⟨0, 0, 9.81⟩)) := by
  constructor
  · unfold predictRotmatUsed
    exact rotmat_normalize_eq _ h
  · rfl

/-- C2 amended, witness: at the initial state with zero gyro the Euler
step leaves the unit quaternion in place and the characterization
applies. -/
theorem predict_rotmat_post_update_witness :
    ¬ quatNorm (eulerStepQuat initEKF.q (v3Sub ⟨0, 0, 0⟩ initEKF.gyroBias)) < 1e-10 ∧
      (predictRotmatUsed initEKF ⟨0, 0, 0⟩
          = quat_to_rotmat (eulerStepQuat initEKF.q (v3Sub ⟨0, 0, 0⟩ initEKF.gyroBias)) ∧
        (predict initEKF ⟨0, 0, 0⟩ ⟨0, 0, 9.81⟩).vel
          = v3Add initEKF.vel
              (v3Smul dt
                (v3Sub (M3.mulVec (predictRotmatUsed initEKF ⟨0, 0, 0⟩) ⟨0, 0, 9.81⟩)
                  ⟨0, 0, 9.81⟩))) := by
  have hstep : eulerStepQuat initEKF.q (v3Sub ⟨0, 0, 0⟩ initEKF.gyroBias) = ⟨1, 0, 0, 0⟩ := by
    unfold initEKF eulerStepQuat omegaMulQ v3Sub dt
    dsimp only
    norm_num
  have h : ¬ quatNorm (eulerStepQuat initEKF.q (v3Sub ⟨0, 0, 0⟩ initEKF.gyroBias)) < 1e-10 := by
    rw [hstep]
    exact quatNormSq_of_unit _ (by norm_num [quatNormSq])
  exact ⟨h, predict_rotmat_post_update initEKF ⟨0, 0, 0⟩ ⟨0, 0, 9.81⟩ h⟩

end AdaptiveEKF

/-- C10: refuted as stated — the two _quat_to_rotmat helpers disagree off
the unit sphere.  At (0, 2, 0, 0) the core helper normalizes first and
returns diag(1, −1, −1), while the root-level duplicate, which never
normalizes, returns a matrix with −7 in the middle entry. -/
theorem rotmat_duplicate_differs :
    AdaptiveEKF.quat_to_rotmat ⟨0, 2, 0, 0⟩ ≠ RootEKF.quat_to_rotmat ⟨0, 2, 0, 0⟩ := by
  intro hEq
  have h4 : quatNormSq (⟨0, 2, 0, 0⟩ : QuatR) = 4 := by norm_num [quatNormSq]
  have hn : ¬ quatNorm (⟨0, 2, 0, 0⟩ : QuatR) < 1e-10 := by
    unfold quatNorm
    rw [h4, show (4 : ℝ) = 2 ^ 2 by norm_num, Real.sqrt_sq (by norm_num : (0 : ℝ) ≤ 2)]
    norm_num
  rw [AdaptiveEKF.quat_to_rotmat_closed _ hn] at hEq
  have h22 := congrArg M3.m22 hEq
  unfold AdaptiveEKF.rotmatClosed RootEKF.quat_to_rotmat at h22
  dsimp only at h22
  rw [h4] at h22
  norm_num at h22

/-- C10 amended: on every unit quaternion — the intended domain, and the
invariant the filters maintain — the two helpers return the same matrix;
they differ in general (the duplicate skips normalization). -/
theorem rotmat_duplicate_agree_unit (q : QuatR) (h : quatNormSq q = 1) :
    AdaptiveEKF.quat_to_rotmat q = RootEKF.quat_to_rotmat q := by
  have hn : ¬ quatNorm q < 1e-10 := quatNormSq_of_unit q h
  rw [AdaptiveEKF.quat_to_rotmat_closed q hn]
  unfold AdaptiveEKF.rotmatClosed RootEKF.quat_to_rotmat
  dsimp only
  rw [h]
  rw [M3.mk.injEq]
  refine ⟨?_, ?_, ?_, ?_, ?_, ?_, ?_, ?_, ?_⟩ <;> rw [div_one]

/-- C10 amended, witness: at the identity quaternion both helpers return
the identity matrix. -/
theorem rotmat_duplicate_agree_unit_witness :
    quatNormSq ⟨1, 0, 0, 0⟩ = 1 ∧
      AdaptiveEKF.quat_to_rotmat ⟨1, 0, 0, 0⟩ = RootEKF.quat_to_rotmat ⟨1, 0, 0, 0⟩ := by
  have h : quatNormSq (⟨1, 0, 0, 0⟩ : QuatR) = 1 := by norm_num [quatNormSq]
  exact ⟨h, rotmat_duplicate_agree_unit _ h⟩

end IMU
